import Mathlib

/-!
Verification of the dombili DOM façade (mutation module `src/unnamed/part_000`,
query module `src/src/query.js`) against its natural-language specification.

The host document tree is an external collaborator (spec §1, §6): it is
modelled here as a finite store of nodes addressed by numeric ids, with the
capability set the spec's §6 lists (parent link, first-child and next-sibling
links, insert-before / append-child / replace-child / remove-child at the
parent, selector matching, query-all at the root).  JavaScript values crossing
the façade's boundary are modelled by the `Value` type, with JS falsiness and
string coercion made explicit.  Each façade function is a direct transcription
of the source; fallible host method calls return `Option Dom`, where `none`
models a raised host exception propagating out of the façade (the façade
itself never catches).
-/

namespace Dombili

/-- A JavaScript value as it crosses the façade's API boundary:
`undefined`/`null` absence sentinels, strings, booleans, a reference into the
host node store, or a host node collection (the result of query-all). -/
inductive Value : Type where
  | undefined : Value
  | null : Value
  | str : String → Value
  | bool : Bool → Value
  | node : Nat → Value
  | nodeList : List Nat → Value
deriving DecidableEq, Repr

/-- JS falsiness: `undefined`, `null`, the empty string and `false` are falsy;
node and collection objects are always truthy. -/
def falsy : Value → Bool
  | .undefined => true
  | .null => true
  | .str s => s.isEmpty
  | .bool b => !b
  | .node _ => false
  | .nodeList _ => false

/-- JS string coercion, as performed by a template literal or a property key. -/
def Value.toStr : Value → String
  | .undefined => "undefined"
  | .null => "null"
  | .str s => s
  | .bool b => if b then "true" else "false"
  | .node _ => "[object Node]"
  | .nodeList _ => "[object NodeList]"

/-- Is this value a JS string? (`typeof el === 'string'`) -/
def Value.isStr : Value → Bool
  | .str _ => true
  | _ => false

/-- Is this value a node reference? -/
def Value.isNode : Value → Bool
  | .node _ => true
  | _ => false

/-- The data of one host-tree node: its kind (text vs element), tag, text
content, serialized inner content (`innerHTML`, kept as an opaque string),
parent and children links, plain JS own-properties (used by the attribute
operations, newest binding first), the set of selectors the node satisfies
(the host's match oracle), and presence flags for the host methods the façade
probes before calling (duck-typed capabilities, spec §9). -/
structure NodeData : Type where
  isText : Bool
  tag : String
  content : String
  innerHTML : String
  parent : Option Nat
  children : List Nat
  props : List (String × Value)
  matchesSel : List String
  hasInsertBefore : Bool
  hasAppendChild : Bool
  hasReplaceChild : Bool
  hasRemoveChild : Bool
  hasMatches : Bool
  hasInnerHTML : Bool
deriving DecidableEq, Repr

/-- A fully capable, freshly created empty element (all host methods present),
used as the base for node construction. -/
def blankNode : NodeData :=
  { isText := false
    tag := ""
    content := ""
    innerHTML := ""
    parent := none
    children := []
    props := []
    matchesSel := []
    hasInsertBefore := true
    hasAppendChild := true
    hasReplaceChild := true
    hasRemoveChild := true
    hasMatches := true
    hasInnerHTML := true }

/-- The host document tree: a total store of node data (ids below `nextId`
are the allocated nodes; ids are allocated in creation order, and id order
stands in for document order), plus presence flags for the document-level
query capabilities the query module probes. -/
structure Dom : Type where
  nodes : Nat → NodeData
  nextId : Nat
  hasQuerySelectorAll : Bool
  hasQuerySelector : Bool

/-- Replace the data stored at id `i`. -/
def setNode (dom : Dom) (i : Nat) (d : NodeData) : Dom :=
  { dom with nodes := fun n => if n = i then d else dom.nodes n }

theorem setNode_nodes (dom : Dom) (i : Nat) (d : NodeData) (j : Nat) :
    (setNode dom i d).nodes j = if j = i then d else dom.nodes j := rfl

theorem setNode_nodes_same (dom : Dom) (i : Nat) (d : NodeData) :
    (setNode dom i d).nodes i = d := by
  simp [setNode_nodes]

theorem setNode_nodes_other (dom : Dom) (i : Nat) (d : NodeData) (j : Nat)
    (h : j ≠ i) : (setNode dom i d).nodes j = dom.nodes j := by
  simp [setNode_nodes, h]

/-! ### List helpers for the host child-list operations -/

/-- Boolean membership in a child list. -/
def memB (x : Nat) : List Nat → Bool
  | [] => false
  | y :: ys => if y = x then true else memB x ys

/-- Remove the first occurrence of `t`. -/
def eraseFirst : List Nat → Nat → List Nat
  | [], _ => []
  | x :: xs, t => if x = t then xs else x :: eraseFirst xs t

/-- Insert `c` immediately before the first occurrence of `r`
(appending if `r` is absent). -/
def insertBeforeInList : List Nat → Nat → Nat → List Nat
  | [], c, _ => [c]
  | x :: xs, c, r => if x = r then c :: x :: xs else x :: insertBeforeInList xs c r

/-- Replace the first occurrence of `o` by `c`. -/
def replaceFirst : List Nat → Nat → Nat → List Nat
  | [], _, _ => []
  | x :: xs, o, c => if x = o then c :: xs else x :: replaceFirst xs o c

/-- The element following the first occurrence of `t`, if any. -/
def nextAfter : List Nat → Nat → Option Nat
  | [], _ => none
  | x :: xs, t => if x = t then xs.head? else nextAfter xs t

/-! ### Host-tree primitives

Modelled from the spec's §6 consumed-capability list; they are supplied by
the environment, not implemented by the repository.  A method call on a node
whose presence flag is off, or with an argument of the wrong kind, or whose
reference/old child is not a child of the parent, returns `none` (a raised
host exception: `TypeError` / `NotFoundError`). -/

/-- Host: `document.createTextNode(s)` — allocates a fresh text node. -/
def domCreateTextNode (dom : Dom) (s : String) : Dom × Nat :=
  let i := dom.nextId
  ({ dom with
      nodes := fun n => if n = i then { blankNode with isText := true, content := s } else dom.nodes n
      nextId := i + 1 }, i)

/-- Host: `document.createElement(tag)` — allocates a fresh empty element. -/
def domCreateElement (dom : Dom) (tag : String) : Dom × Nat :=
  let i := dom.nextId
  ({ dom with
      nodes := fun n => if n = i then { blankNode with tag := tag } else dom.nodes n
      nextId := i + 1 }, i)

/-- Host: detach node `c` from its parent, if it has one (the implicit
first step of every host insertion, spec §3: a node belongs to at most one
parent, insertion into a new location detaches from the prior one). -/
def detach (dom : Dom) (c : Nat) : Dom :=
  match (dom.nodes c).parent with
  | none => dom
  | some p =>
    let d1 := setNode dom p { dom.nodes p with children := eraseFirst (dom.nodes p).children c }
    setNode d1 c { d1.nodes c with parent := none }

/-- Host: place node `c` under parent `p`, before child `r` when given,
at the end otherwise, detaching `c` from any prior parent first. -/
def domInsertInto (dom : Dom) (p c : Nat) (r : Option Nat) : Dom :=
  let d1 := detach dom c
  let newChildren :=
    match r with
    | none => (d1.nodes p).children ++ [c]
    | some ref => insertBeforeInList (d1.nodes p).children c ref
  let d2 := setNode d1 p { d1.nodes p with children := newChildren }
  setNode d2 c { d2.nodes c with parent := some p }

/-- Host: `parent.insertBefore(new, refOrNull)`.  `undefined` converts to
`null` (insert at end); a non-node new child or a non-null non-node
reference raises; a reference that is not a child of `parent` raises
`NotFoundError`; a missing method raises `TypeError`. -/
def callInsertBefore (dom : Dom) (parentV newV refV : Value) : Option Dom :=
  match parentV, newV with
  | .node p, .node c =>
    if (dom.nodes p).hasInsertBefore then
      match refV with
      | .null => some (domInsertInto dom p c none)
      | .undefined => some (domInsertInto dom p c none)
      | .node r =>
        if memB r (dom.nodes p).children then some (domInsertInto dom p c (some r))
        else none
      | _ => none
    else none
  | _, _ => none

/-- Host: `parent.appendChild(new)`. -/
def callAppendChild (dom : Dom) (parentV newV : Value) : Option Dom :=
  match parentV, newV with
  | .node p, .node c =>
    if (dom.nodes p).hasAppendChild then some (domInsertInto dom p c none) else none
  | _, _ => none

/-- Host: `parent.replaceChild(new, old)` — `old` must be a child of
`parent` (else `NotFoundError`); afterwards `new` sits at `old`'s former
position and `old` is detached. -/
def callReplaceChild (dom : Dom) (parentV newV oldV : Value) : Option Dom :=
  match parentV, newV, oldV with
  | .node p, .node c, .node o =>
    if (dom.nodes p).hasReplaceChild then
      if memB o (dom.nodes p).children then
        let d1 := detach dom c
        let d2 := setNode d1 p { d1.nodes p with children := replaceFirst (d1.nodes p).children o c }
        let d3 := setNode d2 c { d2.nodes c with parent := some p }
        some (setNode d3 o { d3.nodes o with parent := none })
      else none
    else none
  | _, _, _ => none

/-- Host: `parent.removeChild(child)` — `child` must be a child of `parent`. -/
def callRemoveChild (dom : Dom) (parentV childV : Value) : Option Dom :=
  match parentV, childV with
  | .node p, .node c =>
    if (dom.nodes p).hasRemoveChild then
      if memB c (dom.nodes p).children then
        let d1 := setNode dom p { dom.nodes p with children := eraseFirst (dom.nodes p).children c }
        some (setNode d1 c { d1.nodes c with parent := none })
      else none
    else none
  | _, _ => none

/-- Property read `v.parentNode`: the parent node, `null` when detached,
`undefined` on a non-node value. -/
def getParentNode (dom : Dom) (v : Value) : Value :=
  match v with
  | .node i =>
    match (dom.nodes i).parent with
    | some p => .node p
    | none => .null
  | _ => .undefined

/-- Property read `v.firstChild`. -/
def getFirstChild (dom : Dom) (v : Value) : Value :=
  match v with
  | .node i =>
    match (dom.nodes i).children with
    | [] => .null
    | c :: _ => .node c
  | _ => .undefined

/-- Property read `v.nextSibling`: the child after `v` in its parent's
child list; `null` for a last child or a detached node. -/
def getNextSibling (dom : Dom) (v : Value) : Value :=
  match v with
  | .node i =>
    match (dom.nodes i).parent with
    | some p =>
      match nextAfter (dom.nodes p).children i with
      | some s => .node s
      | none => .null
    | none => .null
  | _ => .undefined

/-- Truthiness of the property read `v.insertBefore` (method presence). -/
def hasInsertBeforeProp (dom : Dom) (v : Value) : Bool :=
  match v with
  | .node i => (dom.nodes i).hasInsertBefore
  | _ => false

/-- Truthiness of the property read `v.appendChild` (method presence). -/
def hasAppendChildProp (dom : Dom) (v : Value) : Bool :=
  match v with
  | .node i => (dom.nodes i).hasAppendChild
  | _ => false

/-- Whether `typeof v.innerHTML` is not `'undefined'`. -/
def innerHTMLPresent (dom : Dom) (v : Value) : Bool :=
  match v with
  | .node i => (dom.nodes i).hasInnerHTML
  | _ => false

/-- Host: `document.querySelectorAll(sel)` — the allocated elements
satisfying `sel`, in document order (modelled as id order). -/
def domQuerySelectorAll (dom : Dom) (sel : String) : List Nat :=
  (List.range dom.nextId).filter
    (fun i => !(dom.nodes i).isText && (dom.nodes i).matchesSel.contains sel)

/-- JS `a || b`. -/
def jsOr (a b : Value) : Value := if falsy a then b else a

/-! ### The mutation module (`src/unnamed/part_000`)

Each definition transcribes the source function of the same name.  The store
is threaded explicitly; a raised host exception propagates as `none`. -/

/-- `const text = ( txt ) => document.createTextNode( `${txt}` );` -/
def text (dom : Dom) (txt : Value) : Dom × Value :=
  let r := domCreateTextNode dom txt.toStr
  (r.1, .node r.2)

/-- `const normalize = ( el ) => typeof el === 'string' ? text( el ) : el;` -/
def normalize (dom : Dom) (el : Value) : Dom × Value :=
  if el.isStr then text dom el else (dom, el)

/-- `const el = ( nodeName, html = '' ) => { if ( !nodeName ) { return null; }
... }` — creates an element, setting its `innerHTML` when the second
argument is truthy. -/
def el (dom : Dom) (nodeName html : Value) : Dom × Value :=
  if falsy nodeName then (dom, .null)
  else
    let r := domCreateElement dom nodeName.toStr
    if falsy html then (r.1, .node r.2)
    else
      (setNode r.1 r.2 { r.1.nodes r.2 with innerHTML := html.toStr }, .node r.2)

/-- `before( elm, ref )`: guards `!elm`, `!ref`, `!ref.parentNode`,
`!ref.parentNode.insertBefore`, then
`ref.parentNode.insertBefore( normalize( elm ), ref )`. -/
def before (dom : Dom) (elm ref : Value) : Option Dom :=
  if falsy elm then some dom
  else if falsy ref then some dom
  else if falsy (getParentNode dom ref) then some dom
  else if !hasInsertBeforeProp dom (getParentNode dom ref) then some dom
  else
    let n := normalize dom elm
    callInsertBefore n.1 (getParentNode dom ref) n.2 ref

/-- `after( elm, ref )`: same guards as `before`, then
`ref.parentNode.insertBefore( normalize( elm ), ref.nextSibling )`. -/
def after (dom : Dom) (elm ref : Value) : Option Dom :=
  if falsy elm then some dom
  else if falsy ref then some dom
  else if falsy (getParentNode dom ref) then some dom
  else if !hasInsertBeforeProp dom (getParentNode dom ref) then some dom
  else
    let n := normalize dom elm
    callInsertBefore n.1 (getParentNode dom ref) n.2 (getNextSibling dom ref)

/-- `append( elm, ref )`: guards `!elm`, `!ref`, `!ref.appendChild`, then
`ref.appendChild( normalize( elm ) )`. -/
def append (dom : Dom) (elm ref : Value) : Option Dom :=
  if falsy elm then some dom
  else if falsy ref then some dom
  else if !hasAppendChildProp dom ref then some dom
  else
    let n := normalize dom elm
    callAppendChild n.1 ref n.2

/-- `prepend( elm, ref )`: guards `!elm`, `!ref`, `!ref.appendChild`, then
`before( normalize( elm ), ref.firstChild )`. -/
def prepend (dom : Dom) (elm ref : Value) : Option Dom :=
  if falsy elm then some dom
  else if falsy ref then some dom
  else if !hasAppendChildProp dom ref then some dom
  else
    let n := normalize dom elm
    before n.1 n.2 (getFirstChild dom ref)

/-- `replace( elm, ref )`: guards `!elm`, `!ref`; resolves
`parent = elm.parentNode || ref.parentNode || null`; guards `!parent`; then
`parent.replaceChild( normalize( elm ), normalize( ref ) )` with no check
that `parent` has a `replaceChild` method. -/
def replace (dom : Dom) (elm ref : Value) : Option Dom :=
  if falsy elm then some dom
  else if falsy ref then some dom
  else
    let parent := jsOr (getParentNode dom elm) (jsOr (getParentNode dom ref) .null)
    if falsy parent then some dom
    else
      let n1 := normalize dom elm
      let n2 := normalize n1.1 ref
      callReplaceChild n2.1 parent n1.2 n2.2

/-- `remove( elm )`: guards `!elm`, `!elm.parentNode`, then
`elm.parentNode.removeChild( elm )` with no check that the parent has a
`removeChild` method. -/
def remove (dom : Dom) (elm : Value) : Option Dom :=
  if falsy elm then some dom
  else if falsy (getParentNode dom elm) then some dom
  else callRemoveChild dom (getParentNode dom elm) elm

/-- `html( elm, innerHtml )`: guards `!elm` and
`typeof elm.innerHTML === 'undefined'`, then `elm.innerHTML = `${innerHtml}``. -/
def html (dom : Dom) (elm innerHtml : Value) : Option Dom :=
  if falsy elm then some dom
  else if !innerHTMLPresent dom elm then some dom
  else
    match elm with
    | .node i => some (setNode dom i { dom.nodes i with innerHTML := innerHtml.toStr })
    | _ => some dom

/-- `setAttr( elm, attribute, value )`: guards `!elm`, then
`elm[ attribute ] = value` (a plain strict-mode property write: it raises on
a truthy primitive, and an expando on a host collection is not observable
through this model). -/
def setAttr (dom : Dom) (elm attrName value : Value) : Option Dom :=
  if falsy elm then some dom
  else
    match elm with
    | .node i =>
      some (setNode dom i { dom.nodes i with props := (attrName.toStr, value) :: (dom.nodes i).props })
    | .nodeList _ => some dom
    | _ => none

/-- Own-property lookup, newest binding first; `undefined` when absent. -/
def getProp : List (String × Value) → String → Value
  | [], _ => .undefined
  | (k, v) :: rest, key => if k = key then v else getProp rest key

/-- `attr( elm, attribute )`: guards `!elm` (returning `null`), then reads
`elm[ attribute ]`. -/
def attr (dom : Dom) (elm attrName : Value) : Value :=
  if falsy elm then .null
  else
    match elm with
    | .node i => getProp (dom.nodes i).props attrName.toStr
    | _ => .undefined

/-- `setData( elm, attribute, value )`: guards `!elm`, then
`elm[ `data-${attribute}` ] = value`. -/
def setData (dom : Dom) (elm attrName value : Value) : Option Dom :=
  if falsy elm then some dom
  else
    match elm with
    | .node i =>
      some (setNode dom i
        { dom.nodes i with props := ("data-" ++ attrName.toStr, value) :: (dom.nodes i).props })
    | .nodeList _ => some dom
    | _ => none

/-- `data( elm, attribute )`: guards `!elm` (returning `null`), then reads
`elm[ `data-${attribute}` ]`. -/
def data (dom : Dom) (elm attrName : Value) : Value :=
  if falsy elm then .null
  else
    match elm with
    | .node i => getProp (dom.nodes i).props ("data-" ++ attrName.toStr)
    | _ => .undefined

/-! ### The query module (`src/src/query.js`), the parts the claims touch -/

/-- `select( selector )`: returns `null` when `document.querySelectorAll`
is absent, otherwise the host's match collection. -/
def select (dom : Dom) (selector : Value) : Value :=
  if !dom.hasQuerySelectorAll then .null
  else .nodeList (domQuerySelectorAll dom selector.toStr)

/-- `matches( el, selector )`: guards `!el` and `!el.matches` (returning
`null`), then returns `el.matches( selector )`. -/
def matchesQ (dom : Dom) (el selector : Value) : Value :=
  if falsy el then .null
  else
    match el with
    | .node i =>
      if !(dom.nodes i).hasMatches then .null
      else .bool ((dom.nodes i).matchesSel.contains selector.toStr)
    | _ => .null

/-! ### Concrete host trees used to exercise the theorems -/

/-- A host tree with no allocated nodes (every id reads as a detached,
fully capable blank element). -/
def exDom : Dom :=
  { nodes := fun _ => blankNode
    nextId := 0
    hasQuerySelectorAll := true
    hasQuerySelector := true }

/-- A container (id 0) with children `[1, 2]`, plus a detached node 3. -/
def exDomAB : Dom :=
  { nodes := fun n =>
      if n = 0 then { blankNode with children := [1, 2] }
      else if n = 1 then { blankNode with parent := some 0 }
      else if n = 2 then { blankNode with parent := some 0 }
      else blankNode
    nextId := 4
    hasQuerySelectorAll := true
    hasQuerySelector := true }

/-- An empty container (id 0) and a detached node 1. -/
def exDomEmptyC : Dom :=
  { nodes := fun _ => blankNode
    nextId := 2
    hasQuerySelectorAll := true
    hasQuerySelector := true }

/-- A parent (id 0, child list `[1]`) whose `replaceChild` method is
absent, with a detached node 2. -/
def exDomNoRC : Dom :=
  { nodes := fun n =>
      if n = 0 then { blankNode with children := [1], hasReplaceChild := false }
      else if n = 1 then { blankNode with parent := some 0 }
      else blankNode
    nextId := 3
    hasQuerySelectorAll := true
    hasQuerySelector := true }

/-! ### List-level lemmas about the host child-list operations -/

theorem memB_iff_mem (x : Nat) (l : List Nat) : memB x l = true ↔ x ∈ l := by
  induction l with
  | nil => simp [memB]
  | cons y ys ih =>
    by_cases h : y = x
    · subst h; simp [memB]
    · simp [memB, h, ih, List.mem_cons]
      intro hxy
      exact absurd hxy.symm h

theorem memB_false_head {z x : Nat} {zs : List Nat}
    (h : memB x (z :: zs) = false) : ¬ z = x := by
  intro e
  simp [memB, e] at h

theorem memB_false_tail {z x : Nat} {zs : List Nat}
    (h : memB x (z :: zs) = false) : memB x zs = false := by
  have hz : ¬ z = x := memB_false_head h
  simpa [memB, hz] using h

theorem memB_append_cons_self (r : Nat) (pre post : List Nat) :
    memB r (pre ++ r :: post) = true := by
  rw [memB_iff_mem]
  simp

theorem nextAfter_mid (x : Nat) (pre xs : List Nat) (h : memB x pre = false) :
    nextAfter (pre ++ x :: xs) x = xs.head? := by
  induction pre with
  | nil => simp [nextAfter]
  | cons z zs ih =>
    have hz : ¬ z = x := memB_false_head h
    simp [nextAfter, hz, ih (memB_false_tail h)]

theorem insertBeforeInList_mid (c r : Nat) (pre post : List Nat)
    (h : memB r pre = false) :
    insertBeforeInList (pre ++ r :: post) c r = pre ++ c :: r :: post := by
  induction pre with
  | nil => simp [insertBeforeInList]
  | cons z zs ih =>
    have hz : ¬ z = r := memB_false_head h
    simp [insertBeforeInList, hz, ih (memB_false_tail h)]

theorem replaceFirst_mid (o c : Nat) (pre post : List Nat)
    (h : memB o pre = false) :
    replaceFirst (pre ++ o :: post) o c = pre ++ c :: post := by
  induction pre with
  | nil => simp [replaceFirst]
  | cons z zs ih =>
    have hz : ¬ z = o := memB_false_head h
    simp [replaceFirst, hz, ih (memB_false_tail h)]

theorem memB_false_iff (x : Nat) (l : List Nat) : memB x l = false ↔ x ∉ l := by
  rw [Bool.eq_false_iff]
  exact not_congr (memB_iff_mem x l)

/-- The namespacing prefix used by the data-attribute operations never
collapses a key onto itself. -/
theorem dataPrefix_ne (a : String) : "data-" ++ a ≠ a := by
  intro h
  have hl := congrArg String.length h
  rw [String.length_append] at hl
  have h5 : ("data-").length = 5 := by decide
  omega

/-! ### The claims -/

/-- C4: for every string `s`, `normalize(s)` yields a freshly created Text
Node (the next unallocated id, leaving every existing node untouched) whose
content equals `s`'s string form; for every non-string value `v`,
`normalize(v)` returns `v` itself unchanged, with no copy and no store
change. -/
theorem C4_normalize_spec :
    (∀ (dom : Dom) (s : String),
      (normalize dom (.str s)).2 = .node dom.nextId
      ∧ ((normalize dom (.str s)).1.nodes dom.nextId).isText = true
      ∧ ((normalize dom (.str s)).1.nodes dom.nextId).content = s
      ∧ (normalize dom (.str s)).1.nextId = dom.nextId + 1
      ∧ ∀ j, j ≠ dom.nextId → (normalize dom (.str s)).1.nodes j = dom.nodes j)
    ∧ (∀ (dom : Dom) (v : Value), v.isStr = false → normalize dom v = (dom, v)) := by
  constructor
  · intro dom s
    refine ⟨rfl, ?_, ?_, rfl, ?_⟩
    · simp [normalize, text, domCreateTextNode, Value.toStr, Value.isStr]
    · simp [normalize, text, domCreateTextNode, Value.toStr, Value.isStr]
    · intro j hj
      simp [normalize, text, domCreateTextNode, Value.toStr, Value.isStr, hj]
  · intro dom v hv
    cases v <;> first
      | rfl
      | simp [Value.isStr] at hv

/-- Witness for C4 at concrete inputs: a boolean passes through `normalize`
unchanged, and a concrete string yields a text node with that content. -/
theorem C4_normalize_spec_witness :
    normalize exDom (Value.bool true) = (exDom, Value.bool true)
    ∧ ((normalize exDom (Value.str "cat")).1.nodes exDom.nextId).content = "cat" :=
  ⟨C4_normalize_spec.2 exDom (Value.bool true) rfl,
   (C4_normalize_spec.1 exDom "cat").2.2.1⟩

/-- C7: `matches(node, selector)` returns `null` whenever `node` is absent
(falsy) or is not a node with the match-testing method, and otherwise
returns the boolean verdict of the host's match test of the node itself
against the selector. -/
theorem C7_matches_spec :
    (∀ (dom : Dom) (sel v : Value), falsy v = true → matchesQ dom v sel = .null)
    ∧ (∀ (dom : Dom) (sel v : Value), v.isNode = false → matchesQ dom v sel = .null)
    ∧ (∀ (dom : Dom) (sel : Value) (i : Nat), (dom.nodes i).hasMatches = false →
        matchesQ dom (.node i) sel = .null)
    ∧ (∀ (dom : Dom) (sel : Value) (i : Nat), (dom.nodes i).hasMatches = true →
        matchesQ dom (.node i) sel = .bool ((dom.nodes i).matchesSel.contains sel.toStr)) := by
  refine ⟨?_, ?_, ?_, ?_⟩
  · intro dom sel v hv
    simp [matchesQ, hv]
  · intro dom sel v hv
    cases v <;> first
      | (simp [matchesQ, falsy]; done)
      | simp [Value.isNode] at hv
  · intro dom sel i hm
    simp [matchesQ, falsy, hm]
  · intro dom sel i hm
    simp [matchesQ, falsy, hm]

/-- Witness for C7 at concrete inputs: `matches(null, sel)` is `null`;
a node that satisfies `.foo` but not `.bar` tests `true` and `false`. -/
theorem C7_matches_spec_witness :
    matchesQ exDom Value.null (Value.str ".any") = Value.null
    ∧ matchesQ (setNode exDom 0 { blankNode with matchesSel := [".foo"] })
        (Value.node 0) (Value.str ".foo") = Value.bool true
    ∧ matchesQ (setNode exDom 0 { blankNode with matchesSel := [".foo"] })
        (Value.node 0) (Value.str ".bar") = Value.bool false := by
  refine ⟨C7_matches_spec.1 exDom (Value.str ".any") Value.null rfl, ?_, ?_⟩
  · rw [C7_matches_spec.2.2.2 _ (Value.str ".foo") 0 rfl]
    decide
  · rw [C7_matches_spec.2.2.2 _ (Value.str ".bar") 0 rfl]
    decide

/-- C9: `remove` on `null` and on a detached node (no parent) is a silent
no-op: the store is returned unchanged and no host exception is raised. -/
theorem C9_remove_detached_noop :
    (∀ dom : Dom, remove dom Value.null = some dom)
    ∧ (∀ (dom : Dom) (i : Nat), (dom.nodes i).parent = none →
        remove dom (.node i) = some dom) := by
  constructor
  · intro dom
    simp [remove, falsy]
  · intro dom i h
    simp [remove, falsy, getParentNode, h]

/-- Witness for C9 at a concrete input: removing the detached node 3 of
`exDomAB` leaves the store exactly as it was. -/
theorem C9_remove_detached_noop_witness :
    remove exDomAB (Value.node 3) = some exDomAB :=
  C9_remove_detached_noop.2 exDomAB 3 rfl

/-- C10: data attributes share the plain-property namespace: after
`setData(n, a, v)`, both `data(n, a)` and `attr(n, 'data-' + a)` read back
`v` (the value sits under the direct property key `'data-' + a`), while
`attr(n, a)` is unaffected. -/
theorem C10_data_namespace_shared :
    ∀ (dom : Dom) (i : Nat) (a : String) (v : Value) (d' : Dom),
      setData dom (.node i) (.str a) v = some d' →
      data d' (.node i) (.str a) = v
      ∧ attr d' (.node i) (.str ("data-" ++ a)) = v
      ∧ attr d' (.node i) (.str a) = attr dom (.node i) (.str a) := by
  intro dom i a v d' h
  simp only [setData, falsy, Bool.false_eq_true, if_false, Option.some.injEq] at h
  subst h
  refine ⟨?_, ?_, ?_⟩
  · simp [data, falsy, setNode_nodes_same, getProp, Value.toStr]
  · simp [attr, falsy, setNode_nodes_same, getProp, Value.toStr]
  · simp [attr, falsy, setNode_nodes_same, getProp, Value.toStr, dataPrefix_ne a]

/-- Witness for C10 at concrete inputs: setting data attribute `x` to `"y"`
on node 0 is read back by `data` and by `attr` under key `data-x`, and the
plain attribute `x` is untouched. -/
theorem C10_data_namespace_shared_witness :
    data (setNode exDom 0 { exDom.nodes 0 with props := ("data-" ++ "x", Value.str "y") :: (exDom.nodes 0).props })
      (Value.node 0) (Value.str "x") = Value.str "y"
    ∧ attr (setNode exDom 0 { exDom.nodes 0 with props := ("data-" ++ "x", Value.str "y") :: (exDom.nodes 0).props })
      (Value.node 0) (Value.str "x") = attr exDom (Value.node 0) (Value.str "x") := by
  refine ⟨(C10_data_namespace_shared exDom 0 "x" (Value.str "y") _ rfl).1,
          (C10_data_namespace_shared exDom 0 "x" (Value.str "y") _ rfl).2.2⟩

/-- C6: `el` (`createElement`) returns `null` for every falsy tag name,
whatever the second argument; `el('div')` returns a fresh element with no
children and empty serialized content; with a non-empty inner markup string
the fresh element's serialized inner content is that string verbatim. -/
theorem C6_createElement_spec :
    (∀ (dom : Dom) (t x : Value), falsy t = true → el dom t x = (dom, .null))
    ∧ (∀ dom : Dom,
        (el dom (.str "div") (.str "")).2 = .node dom.nextId
        ∧ ((el dom (.str "div") (.str "")).1.nodes dom.nextId).children = []
        ∧ ((el dom (.str "div") (.str "")).1.nodes dom.nextId).innerHTML = "")
    ∧ (∀ (dom : Dom) (t : Value) (m : String), falsy t = false → m ≠ "" →
        (el dom t (.str m)).2 = .node dom.nextId
        ∧ ((el dom t (.str m)).1.nodes dom.nextId).innerHTML = m) := by
  refine ⟨?_, ?_, ?_⟩
  · intro dom t x ht
    simp [el, ht]
  · intro dom
    have h1 : falsy (Value.str "div") = false := by decide
    have h2 : falsy (Value.str "") = true := by decide
    refine ⟨?_, ?_, ?_⟩ <;>
      simp [el, h1, h2, domCreateElement, blankNode]
  · intro dom t m ht hm
    have h2 : falsy (Value.str m) = false := by
      simp [falsy]
      exact Bool.eq_false_iff.mpr (fun h => hm ((String.isEmpty_iff m).mp h))
    refine ⟨?_, ?_⟩ <;>
      simp [el, ht, h2, domCreateElement, setNode_nodes_same, Value.toStr]

/-- Witness for C6 at concrete inputs: an empty tag gives `null` whatever
the markup; `el('div', '<b>x</b>')` carries that markup verbatim. -/
theorem C6_createElement_spec_witness :
    el exDom (Value.str "") (Value.str "<b>x</b>") = (exDom, Value.null)
    ∧ el exDom Value.undefined (Value.str "") = (exDom, Value.null)
    ∧ ((el exDom (Value.str "div") (Value.str "<b>x</b>")).1.nodes exDom.nextId).innerHTML = "<b>x</b>" := by
  refine ⟨C6_createElement_spec.1 exDom (Value.str "") (Value.str "<b>x</b>") rfl,
          C6_createElement_spec.1 exDom Value.undefined (Value.str "") rfl,
          (C6_createElement_spec.2.2 exDom (Value.str "div") "<b>x</b>" rfl (by decide)).2⟩

/-- C8: `select` (`selectAll`) returns `null` when the host tree lacks the
query-all capability, and an empty collection — not `null` — when the
capability exists but no allocated element satisfies the selector. -/
theorem C8_selectAll_spec :
    (∀ (dom : Dom) (sel : Value), dom.hasQuerySelectorAll = false →
      select dom sel = .null)
    ∧ (∀ (dom : Dom) (sel : Value), dom.hasQuerySelectorAll = true →
        (∀ i, i < dom.nextId →
          (dom.nodes i).isText = true ∨ (dom.nodes i).matchesSel.contains sel.toStr = false) →
        select dom sel = .nodeList [] ∧ select dom sel ≠ .null) := by
  constructor
  · intro dom sel hq
    simp [select, hq]
  · intro dom sel hq h
    have hfil : domQuerySelectorAll dom sel.toStr = [] := by
      apply List.filter_eq_nil_iff.mpr
      intro i hi hp
      rcases h i (List.mem_range.mp hi) with ht | hc
      · rw [ht] at hp
        simp at hp
      · rw [hc] at hp
        simp at hp
    constructor
    · simp [select, hq, hfil]
    · simp [select, hq, hfil]

/-- Witness for C8 at concrete inputs: on `exDomAB` (no node satisfies any
selector) a capable query returns the empty collection, and the same store
with the capability stripped returns `null`. -/
theorem C8_selectAll_spec_witness :
    select exDomAB (Value.str "missing-selector") = Value.nodeList []
    ∧ select { exDomAB with hasQuerySelectorAll := false } (Value.str "missing-selector") = Value.null := by
  refine ⟨(C8_selectAll_spec.2 exDomAB (Value.str "missing-selector") rfl ?_).1,
          C8_selectAll_spec.1 _ (Value.str "missing-selector") rfl⟩
  decide

/-- C1 (code bug): for a container with children `[A, B]`, `prepend(C,
container)` does yield `[C, A, B]`; but prepending into an **empty**
container is a silent no-op, not an append: `before` receives the `null`
`firstChild` as its reference and its `if ( !ref ) return;` guard discards
the insertion, contradicting both the spec's degradation-to-append claim
and the source's own documentation ("Insert `Element` `elm` as the first
child of the `Element` `ref`"). -/
theorem C1_prepend_empty_container_bug :
    prepend exDomEmptyC (Value.node 1) (Value.node 0) = some exDomEmptyC
    ∧ (exDomEmptyC.nodes 0).children = []
    ∧ (prepend exDomAB (Value.node 3) (Value.node 0)).map
        (fun d => ((d.nodes 0).children, (d.nodes 3).parent)) = some ([3, 1, 2], some 0) :=
  ⟨rfl, rfl, rfl⟩

/-- C2 counterexample: `replace` performs the replacement without probing
the resolved parent's `replaceChild` method, so on a parent lacking it the
operation raises (a host `TypeError`, modelled as `none`) instead of being
the silent no-op the claim promises. -/
theorem C2_replace_missing_method_raises :
    replace exDomNoRC (Value.node 2) (Value.node 1) = none := rfl

/-- C2 (amended): each mutation operation is a silent no-op — the store is
returned unchanged, nothing raised — when a required input is absent or a
capability it *checks* is missing: `before`/`after` check the reference's
parent and that parent's `insertBefore`; `append`/`prepend` check the
container's `appendChild`; `replace` and `remove` check only that a parent
resolves (not its `replaceChild`/`removeChild` method); `html` checks the
node's `innerHTML`; `setAttr`/`setData` check only the node's presence. -/
theorem C2_mutation_noop_guards :
    (∀ (dom : Dom) (e r : Value),
      (falsy e = true ∨ falsy r = true ∨ falsy (getParentNode dom r) = true
        ∨ hasInsertBeforeProp dom (getParentNode dom r) = false) →
      before dom e r = some dom)
    ∧ (∀ (dom : Dom) (e r : Value),
      (falsy e = true ∨ falsy r = true ∨ falsy (getParentNode dom r) = true
        ∨ hasInsertBeforeProp dom (getParentNode dom r) = false) →
      after dom e r = some dom)
    ∧ (∀ (dom : Dom) (e r : Value),
      (falsy e = true ∨ falsy r = true ∨ hasAppendChildProp dom r = false) →
      append dom e r = some dom)
    ∧ (∀ (dom : Dom) (e r : Value),
      (falsy e = true ∨ falsy r = true ∨ hasAppendChildProp dom r = false) →
      prepend dom e r = some dom)
    ∧ (∀ (dom : Dom) (e r : Value),
      (falsy e = true ∨ falsy r = true
        ∨ falsy (jsOr (getParentNode dom e) (jsOr (getParentNode dom r) .null)) = true) →
      replace dom e r = some dom)
    ∧ (∀ (dom : Dom) (e : Value),
      (falsy e = true ∨ falsy (getParentNode dom e) = true) →
      remove dom e = some dom)
    ∧ (∀ (dom : Dom) (e h : Value),
      (falsy e = true ∨ innerHTMLPresent dom e = false) →
      html dom e h = some dom)
    ∧ (∀ (dom : Dom) (e a v : Value), falsy e = true → setAttr dom e a v = some dom)
    ∧ (∀ (dom : Dom) (e a v : Value), falsy e = true → setData dom e a v = some dom) := by
  refine ⟨?_, ?_, ?_, ?_, ?_, ?_, ?_, ?_, ?_⟩
  · intro dom e r h
    rcases h with h | h | h | h <;> simp [before, h]
  · intro dom e r h
    rcases h with h | h | h | h <;> simp [after, h]
  · intro dom e r h
    rcases h with h | h | h <;> simp [append, h]
  · intro dom e r h
    rcases h with h | h | h <;> simp [prepend, h]
  · intro dom e r h
    rcases h with h | h | h <;> simp [replace, h]
  · intro dom e h
    rcases h with h | h <;> simp [remove, h]
  · intro dom e ih h
    rcases h with h | h <;> simp [html, h]
  · intro dom e a v h
    simp [setAttr, h]
  · intro dom e a v h
    simp [setData, h]

/-- Witness for C2 at concrete inputs: one silent no-op per mutation
operation, each through its guard. -/
theorem C2_mutation_noop_guards_witness :
    before exDom Value.null Value.null = some exDom
    ∧ after exDom Value.null Value.null = some exDom
    ∧ append exDom (Value.node 0) Value.null = some exDom
    ∧ prepend exDom Value.null (Value.node 0) = some exDom
    ∧ replace exDom (Value.node 0) (Value.node 1) = some exDom
    ∧ remove exDom (Value.node 0) = some exDom
    ∧ html exDom Value.undefined (Value.str "x") = some exDom
    ∧ setAttr exDom Value.null (Value.str "k") (Value.str "v") = some exDom
    ∧ setData exDom Value.null (Value.str "k") (Value.str "v") = some exDom :=
  ⟨C2_mutation_noop_guards.1 exDom Value.null Value.null (Or.inl rfl),
   C2_mutation_noop_guards.2.1 exDom Value.null Value.null (Or.inl rfl),
   C2_mutation_noop_guards.2.2.1 exDom (Value.node 0) Value.null (Or.inr (Or.inl rfl)),
   C2_mutation_noop_guards.2.2.2.1 exDom Value.null (Value.node 0) (Or.inl rfl),
   C2_mutation_noop_guards.2.2.2.2.1 exDom (Value.node 0) (Value.node 1) (Or.inr (Or.inr rfl)),
   C2_mutation_noop_guards.2.2.2.2.2.1 exDom (Value.node 0) (Or.inr rfl),
   C2_mutation_noop_guards.2.2.2.2.2.2.1 exDom Value.undefined (Value.str "x") (Or.inl rfl),
   C2_mutation_noop_guards.2.2.2.2.2.2.2.1 exDom Value.null (Value.str "k") (Value.str "v") rfl,
   C2_mutation_noop_guards.2.2.2.2.2.2.2.2 exDom Value.null (Value.str "k") (Value.str "v") rfl⟩

/-- C3: `replace(node, reference)` resolves the parent with the precedence
`elm.parentNode || ref.parentNode`: it is a no-op when neither input yields
a parent; when `node` has its own parent the replacement runs against that
parent (so it raises `NotFoundError` when `reference` is not a child
there); and in the base case — `reference` a child of `P`, `node` detached —
afterwards `P`'s children hold `node` at `reference`'s former position and
`reference` is detached. -/
theorem C3_replace_parent_resolution :
    (∀ (dom : Dom) (elm ref : Value),
      falsy (getParentNode dom elm) = true → falsy (getParentNode dom ref) = true →
      replace dom elm ref = some dom)
    ∧ (∀ (dom : Dom) (e q r : Nat),
      (dom.nodes e).parent = some q →
      memB r (dom.nodes q).children = false →
      (dom.nodes q).hasReplaceChild = true →
      replace dom (.node e) (.node r) = none)
    ∧ (∀ (dom : Dom) (e r p : Nat) (pre post : List Nat),
      (dom.nodes e).parent = none →
      (dom.nodes r).parent = some p →
      (dom.nodes p).children = pre ++ r :: post →
      memB r pre = false →
      (dom.nodes p).hasReplaceChild = true →
      e ≠ p → r ≠ p →
      (replace dom (.node e) (.node r)).map
        (fun d => ((d.nodes p).children, (d.nodes e).parent, (d.nodes r).parent))
        = some (pre ++ e :: post, some p, none)) := by
  refine ⟨?_, ?_, ?_⟩
  · intro dom elm ref h1 h2
    by_cases he : falsy elm = true
    · simp [replace, he]
    · by_cases hr : falsy ref = true
      · simp [replace, he, hr]
      · have hp : falsy (jsOr (getParentNode dom elm) (jsOr (getParentNode dom ref) .null)) = true := by
          simp [jsOr, h1, h2]
          rfl
        simp [replace, he, hr, hp]
  · intro dom e q r h1 h2 h3
    simp [replace, falsy, getParentNode, h1, jsOr, normalize, Value.isStr,
          callReplaceChild, h3, h2]
  · intro dom e r p pre post h1 h2 hch hpre hrc hep hrp
    have her : e ≠ r := by
      intro h
      rw [h] at h1
      rw [h1] at h2
      exact Option.noConfusion h2
    have hmem : memB r (dom.nodes p).children = true := by
      rw [hch]
      exact memB_append_cons_self r pre post
    have hrepl : replaceFirst (dom.nodes p).children r e = pre ++ e :: post := by
      rw [hch]
      exact replaceFirst_mid r e pre post hpre
    simp [replace, falsy, getParentNode, h1, h2, jsOr, normalize, Value.isStr,
          callReplaceChild, hrc, hmem, detach, hrepl, setNode_nodes,
          hep, hrp, her, Ne.symm hep, Ne.symm hrp, Ne.symm her]

/-- Witness for C3 at concrete inputs: on the container `0` with children
`[1, 2]` and the detached node `3`, replacing the reference `1` by `3`
yields children `[3, 2]`, attaches `3` and detaches `1`; and with the
arguments' roles reversed (`1` attached, `3` not a child of `1`'s parent's
child list — precedence picks `1`'s parent) the call raises. -/
theorem C3_replace_parent_resolution_witness :
    (replace exDomAB (Value.node 3) (Value.node 1)).map
      (fun d => ((d.nodes 0).children, (d.nodes 3).parent, (d.nodes 1).parent))
      = some ([3, 2], some 0, none)
    ∧ replace exDomAB (Value.node 1) (Value.node 3) = none := by
  refine ⟨?_, C3_replace_parent_resolution.2.1 exDomAB 1 0 3 rfl rfl rfl⟩
  have h := C3_replace_parent_resolution.2.2 exDomAB 3 1 0 [] [2]
    rfl rfl rfl rfl rfl (by decide) (by decide)
  simpa using h

/-- C5: `insertAfter` (`after`) inserts the normalized node immediately
before `reference.nextSibling` within the reference's parent: when the
reference is the last child the new node becomes the new last child
(insert before null is append), and when a next sibling `y` exists the new
node lands between the reference and `y`. -/
theorem C5_insertAfter_spec :
    (∀ (dom : Dom) (x2 x p : Nat) (cs : List Nat),
      (dom.nodes x).parent = some p →
      (dom.nodes p).children = cs ++ [x] →
      memB x cs = false →
      (dom.nodes x2).parent = none →
      (dom.nodes p).hasInsertBefore = true →
      x2 ≠ p →
      (after dom (.node x2) (.node x)).map
        (fun d => ((d.nodes p).children, (d.nodes x2).parent))
        = some (cs ++ [x, x2], some p))
    ∧ (∀ (dom : Dom) (x2 x y p : Nat) (pre post : List Nat),
      (dom.nodes x).parent = some p →
      (dom.nodes p).children = pre ++ x :: y :: post →
      memB x pre = false →
      memB y pre = false →
      y ≠ x →
      (dom.nodes x2).parent = none →
      (dom.nodes p).hasInsertBefore = true →
      x2 ≠ p →
      (after dom (.node x2) (.node x)).map
        (fun d => ((d.nodes p).children, (d.nodes x2).parent))
        = some (pre ++ x :: x2 :: y :: post, some p)) := by
  constructor
  · intro dom x2 x p cs h1 hch hcs h4 hib hx2p
    have hna : nextAfter (dom.nodes p).children x = none := by
      rw [hch]
      exact nextAfter_mid x cs [] hcs
    have happ : (dom.nodes p).children ++ [x2] = cs ++ [x, x2] := by
      rw [hch]
      simp
    simp [after, falsy, getParentNode, h1, hasInsertBeforeProp, hib, normalize,
          Value.isStr, getNextSibling, hna, callInsertBefore, domInsertInto,
          detach, h4, happ, setNode_nodes, hx2p, Ne.symm hx2p]
  · intro dom x2 x y p pre post h1 hch hxpre hypre hyx h4 hib hx2p
    have hna : nextAfter (dom.nodes p).children x = some y := by
      rw [hch]
      exact nextAfter_mid x pre (y :: post) hxpre
    have hmem : memB y (dom.nodes p).children = true := by
      rw [hch, memB_iff_mem]
      simp
    have hins : insertBeforeInList (dom.nodes p).children x2 y
        = pre ++ x :: x2 :: y :: post := by
      have hky : memB y (pre ++ [x]) = false := by
        rw [memB_false_iff]
        simp [List.mem_append]
        exact ⟨(memB_false_iff y pre).mp hypre, hyx⟩
      have hsplit : (dom.nodes p).children = (pre ++ [x]) ++ y :: post := by
        rw [hch]
        simp
      rw [hsplit, insertBeforeInList_mid x2 y (pre ++ [x]) post hky]
      simp
    simp [after, falsy, getParentNode, h1, hasInsertBeforeProp, hib, normalize,
          Value.isStr, getNextSibling, hna, callInsertBefore, hmem, domInsertInto,
          detach, h4, hins, setNode_nodes, hx2p, Ne.symm hx2p]

/-- Witness for C5 at concrete inputs: appending `3` after the last child
`2` of container `0` gives children `[1, 2, 3]`; inserting `3` after the
middle child `1` gives `[1, 3, 2]`. -/
theorem C5_insertAfter_spec_witness :
    (after exDomAB (Value.node 3) (Value.node 2)).map
      (fun d => ((d.nodes 0).children, (d.nodes 3).parent)) = some ([1, 2, 3], some 0)
    ∧ (after exDomAB (Value.node 3) (Value.node 1)).map
      (fun d => ((d.nodes 0).children, (d.nodes 3).parent)) = some ([1, 3, 2], some 0) := by
  constructor
  · have h := C5_insertAfter_spec.1 exDomAB 3 2 0 [1] rfl rfl rfl rfl rfl (by decide)
    simpa using h
  · have h := C5_insertAfter_spec.2 exDomAB 3 1 2 0 [] [] rfl rfl rfl rfl
      (by decide) rfl rfl (by decide)
    simpa using h

end Dombili
